import Mathlib

/-!
# Verification of the fedimint-nwc request-lifecycle gateway

Shallow embedding of `src/fedimint-nwc/src/main.rs` and
`src/fedimint-nwc/src/state.rs`: the notification loop (`event_loop`), the
authentication gate, the in-flight ledger (`active_requests : BTreeSet<EventId>`),
the timeout-bounded dispatch (`AppState::handle_event`), and the shutdown drain
(`AppState::wait_for_active_requests`).

Modelling conventions:
- `EventId` and public keys are `Nat`; the nostr `Kind` is its numeric tag
  (`Kind::WalletConnectRequest` = 23194).
- `Event::verify()` is external cryptography; its outcome is carried on the
  event as the boolean field `verifyOk`.
- The backend call `handle_nwc_request` lives outside the two source files; it
  is modelled as an oracle `Backend` giving either `none` (never returns) or
  `some (t, r)`: it completes after `t` seconds with result `r`.
- The `BTreeSet` is embedded as a strictly sorted `List Nat` with the
  source-faithful ordered insert (no duplicate inserted) and remove.
-/

namespace FedimintNwc

/-- Numeric tag of `nostr_sdk::Kind::WalletConnectRequest` (NIP-47 request). -/
def kindWalletConnectRequest : Nat := 23194

/-- A nostr event as inspected by the gateway: identifier, kind tag, author
public key, and the (externally computed) outcome of `event.verify().is_ok()`. -/
structure Event where
  id : Nat
  kind : Nat
  pubkey : Nat
  verifyOk : Bool
deriving DecidableEq, Repr

/-- Oracle for the external `handle_nwc_request` call: `none` means the call
never returns; `some (t, r)` means it completes after `t` seconds with `r`. -/
structure Backend where
  completes : Option (Nat × Except String Unit)

/-- The fixed dispatch timeout: `Duration::from_secs(60)` in
`AppState::handle_event`. -/
def timeoutSecs : Nat := 60

/-- Outcome of the timeout-bounded backend invocation, mirroring the `match`
in `AppState::handle_event`: `Ok(Ok(_))`, `Ok(Err(e))`, `Err(elapsed)`. -/
inductive DispatchOutcome
  | ok
  | backendErr (e : String)
  | timedOut
deriving DecidableEq, Repr

/-- `tokio::time::timeout(Duration::from_secs(60), handle_nwc_request(..))`:
the backend result if it arrives before the deadline, otherwise a timeout at
the deadline. Returns the outcome and the elapsed seconds. -/
def runWithTimeout (b : Backend) : DispatchOutcome × Nat :=
  match b.completes with
  | none => (DispatchOutcome.timedOut, timeoutSecs)
  | some (t, r) =>
      if t < timeoutSecs then
        match r with
        | Except.ok _ => (DispatchOutcome.ok, t)
        | Except.error e => (DispatchOutcome.backendErr e, t)
      else (DispatchOutcome.timedOut, timeoutSecs)

/-- Log entries, one constructor per `info!` / `error!` call site in the two
source files (the event id or error string stands in for the formatted text). -/
inductive LogEntry
  | infoListening
  | infoReceivedLoop (id : Nat)
  | infoReceivedDispatch (id : Nat)
  | errorInvalidNwc (id : Nat)
  | errorInvalidEvent (id : Nat)
  | errorProcessing (e : String)
  | errorTimeout
  | errorUnhandledNotice
  | infoCtrlC
  | infoAllCompleted
  | infoRelayShutdown
deriving DecidableEq, Repr

/-- `BTreeSet::insert` on the strictly-sorted-list embedding: walk to the
ordered position; if the element is already present the set is unchanged. -/
def btreeInsert (x : Nat) : List Nat → List Nat
  | [] => [x]
  | y :: ys =>
      if x < y then x :: y :: ys
      else if x = y then y :: ys
      else y :: btreeInsert x ys

/-- `BTreeSet::remove` on the list embedding: drop the element if present. -/
def btreeRemove (x : Nat) : List Nat → List Nat
  | [] => []
  | y :: ys => if x = y then ys else y :: btreeRemove x ys

/-- The guard of `AppState::handle_event` (state.rs line 65):
`event.kind == Kind::WalletConnectRequest && event.verify().is_ok()`.
Note: the author public key is NOT inspected here. -/
def handle_event_gate (ev : Event) : Bool :=
  (ev.kind == kindWalletConnectRequest) && ev.verifyOk

/-- The guard of the notification loop in `event_loop` (main.rs lines 58-60):
`event.kind == Kind::WalletConnectRequest && event.pubkey == self_pk
 && event.verify().is_ok()`. -/
def event_loop_gate (selfPk : Nat) (ev : Event) : Bool :=
  (ev.kind == kindWalletConnectRequest) && (ev.pubkey == selfPk) && ev.verifyOk

/-- Result of one `AppState::handle_event` call. `ledgerDuring` is the ledger
after the `insert` and before the backend invocation; `ledger` is the ledger
after the unconditional `remove`; `cancelSent` records whether the dispatch
issued any cancellation command towards the backend (the source has no such
call: after the timeout `match`, execution falls through to the `remove`). -/
structure HandleResult where
  ledgerDuring : List Nat
  ledger : List Nat
  logs : List LogEntry
  backendInvoked : Bool
  cancelSent : Bool
  elapsed : Nat
deriving DecidableEq, Repr

/-- `AppState::handle_event` (state.rs lines 64-82): re-check kind and
signature; on success insert the id, run the backend under the 60 s timeout,
log the outcome, and remove the id; otherwise log and drop the event. -/
def handle_event (active : List Nat) (ev : Event) (b : Backend) : HandleResult :=
  if handle_event_gate ev then
    let during := btreeInsert ev.id active
    let out := runWithTimeout b
    let outcomeLogs : List LogEntry :=
      match out.fst with
      | DispatchOutcome.ok => []
      | DispatchOutcome.backendErr e => [LogEntry.errorProcessing e]
      | DispatchOutcome.timedOut => [LogEntry.errorTimeout]
    { ledgerDuring := during
      ledger := btreeRemove ev.id during
      logs := LogEntry.infoReceivedDispatch ev.id :: outcomeLogs
      backendInvoked := true
      cancelSent := false
      elapsed := out.snd }
  else
    { ledgerDuring := active
      ledger := active
      logs := [LogEntry.errorInvalidEvent ev.id]
      backendInvoked := false
      cancelSent := false
      elapsed := 0 }

/-- A notification from the relay pool, mirroring the `RelayPoolNotification`
variants matched in `event_loop`: an event, a shutdown notice, or any other
variant (message, relay status, ...). -/
inductive Notice
  | event (ev : Event)
  | shutdown
  | other
deriving Repr

/-- Outcome of `notifications.recv()`: a notification, or a receive error
(e.g. a lagging broadcast stream). -/
inductive RecvResult
  | ok (n : Notice)
  | err
deriving Repr

/-- One firing of the `tokio::select!` in `event_loop`: either the ctrl+c
future completes, or `notifications.recv()` yields. -/
inductive LoopInput
  | ctrlC
  | recv (r : RecvResult)
deriving Repr

/-- Which `break` ended the loop. -/
inductive ExitPath
  | drained
  | relayShutdown
deriving DecidableEq, Repr

/-- Observable trace of one `event_loop` run over a finite input schedule.
`backendCalls` records the ids for which `handle_nwc_request` was invoked;
`exitPath = none` means the loop had not broken out when the schedule ended
(still waiting, or hung); `drainWaitEntered` records that
`wait_for_active_requests` was called; `disconnectCalled` records that
`nostr_service.disconnect()` was reached after the loop; `hung` records that
the run is stuck inside `wait_for_active_requests` forever. -/
structure LoopTrace where
  ledger : List Nat
  logs : List LogEntry
  backendCalls : List Nat
  exitPath : Option ExitPath
  drainWaitEntered : Bool
  disconnectCalled : Bool
  hung : Bool
deriving DecidableEq, Repr

/-- The `loop { tokio::select! { .. } }` of `event_loop` (main.rs lines 45-79)
run over a finite schedule of select outcomes, followed by the
`disconnect()` call after the loop (line 81).

- ctrl+c: log, call `wait_for_active_requests`; that call returns only when
  the ledger it observes is empty (it holds the mutex guard for its whole
  duration, see `wait_for_active_requests_polls` below), after which the loop
  breaks and disconnects; on a nonempty ledger the run hangs there.
- a received event: apply the three-part gate; accepted events are logged and
  handed to `handle_event`; rejected ones are logged and dropped.
- a shutdown notice: log and break immediately (no drain), then disconnect.
- any other notification: log as unhandled and continue.
- a receive error: nothing at all is done (`Err(_) => {}`). -/
def event_loop_go (selfPk : Nat) (bk : Event → Backend) :
    List Nat → List LogEntry → List Nat → List LoopInput → LoopTrace
  | ledger, logs, calls, [] =>
      { ledger := ledger, logs := logs, backendCalls := calls, exitPath := none,
        drainWaitEntered := false, disconnectCalled := false, hung := false }
  | ledger, logs, calls, LoopInput.ctrlC :: _ =>
      if ledger.isEmpty then
        { ledger := ledger
          logs := logs ++ [LogEntry.infoCtrlC, LogEntry.infoAllCompleted]
          backendCalls := calls, exitPath := some ExitPath.drained
          drainWaitEntered := true, disconnectCalled := true, hung := false }
      else
        { ledger := ledger, logs := logs ++ [LogEntry.infoCtrlC]
          backendCalls := calls, exitPath := none
          drainWaitEntered := true, disconnectCalled := false, hung := true }
  | ledger, logs, calls, LoopInput.recv RecvResult.err :: rest =>
      event_loop_go selfPk bk ledger logs calls rest
  | ledger, logs, calls, LoopInput.recv (RecvResult.ok (Notice.event ev)) :: rest =>
      if event_loop_gate selfPk ev then
        let r := handle_event ledger ev (bk ev)
        event_loop_go selfPk bk r.ledger
          (logs ++ LogEntry.infoReceivedLoop ev.id :: r.logs)
          (if r.backendInvoked then calls ++ [ev.id] else calls) rest
      else
        event_loop_go selfPk bk ledger
          (logs ++ [LogEntry.errorInvalidNwc ev.id]) calls rest
  | ledger, logs, calls, LoopInput.recv (RecvResult.ok Notice.shutdown) :: _ =>
      { ledger := ledger, logs := logs ++ [LogEntry.infoRelayShutdown]
        backendCalls := calls, exitPath := some ExitPath.relayShutdown
        drainWaitEntered := false, disconnectCalled := true, hung := false }
  | ledger, logs, calls, LoopInput.recv (RecvResult.ok Notice.other) :: rest =>
      event_loop_go selfPk bk ledger
        (logs ++ [LogEntry.errorUnhandledNotice]) calls rest

/-- `AppState::wait_for_active_requests` (state.rs lines 51-60). The source
acquires the mutex guard ONCE, before the loop, and holds it across every
iteration including the 1-second sleep; hence no other task can mutate the
set while the wait runs (in particular `handle_event`'s `remove` blocks on
the same mutex), and each iteration re-checks `is_empty` on the very same
set. The recursion therefore threads `requests` unchanged; `fuel` bounds the
number of 1-second polls observed, and the result is `true` iff the wait has
returned within `fuel` polls. -/
def wait_for_active_requests_polls : Nat → List Nat → Bool
  | 0, _ => false
  | Nat.succ fuel, requests =>
      if requests.isEmpty then true
      else wait_for_active_requests_polls fuel requests

/-- Process exit status: `zero` for `Ok(())` from `main`, `nonzero` for
`Err(_)` (anyhow error propagated out of `#[tokio::main]`). -/
inductive ExitStatus
  | zero
  | nonzero
deriving DecidableEq, Repr

/-- Oracles for the fallible external operations of `main` plus the run
parameters: `newOk` is `AppState::new` (key load, backend construction,
transport construction), `broadcastOk` is `broadcast_info_event`,
`disconnectOk` is the `disconnect()` after the loop. (`connect()` in the
source returns no `Result` and cannot fail.) -/
structure Env where
  newOk : Bool
  broadcastOk : Bool
  disconnectOk : Bool
  selfPk : Nat
  bk : Event → Backend
  inputs : List LoopInput

/-- The `event_loop` body run from the empty ledger, as `main` invokes it. -/
def event_loop_run (env : Env) : LoopTrace :=
  event_loop_go env.selfPk env.bk [] [] [] env.inputs

/-- Result of `event_loop(state).await` as seen by `main`: `none` if the loop
never returned on this schedule; otherwise `Ok(())`/`Err` according to the
final `disconnect()`. -/
def event_loop_result (env : Env) : Option ExitStatus :=
  match (event_loop_run env).exitPath with
  | none => none
  | some _ =>
      some (if env.disconnectOk then ExitStatus.zero else ExitStatus.nonzero)

/-- `main` (main.rs lines 17-36): `AppState::new(cli).await?`, `connect()`,
`broadcast_info_event(..).await?`, then `event_loop(state).await?`.
Note that `AppState::init` is never called (see `main_transitive_calls`). -/
def main_run (env : Env) : Option ExitStatus :=
  if env.newOk = false then some ExitStatus.nonzero
  else if env.broadcastOk = false then some ExitStatus.nonzero
  else event_loop_result env

/-- Ledger mutations available to any dispatch task: the `insert` at the start
of a dispatch (`begin`) and the `remove` at its end (`end`). -/
inductive LedgerOp
  | beginOp (id : Nat)
  | endOp (id : Nat)
deriving Repr

/-- Apply one ledger mutation. -/
def applyLedgerOp (l : List Nat) : LedgerOp → List Nat
  | LedgerOp.beginOp i => btreeInsert i l
  | LedgerOp.endOp i => btreeRemove i l

/-- The ledger after an arbitrary finite sequence of mutations, starting from
the empty set built in `AppState::new`. Covers every interleaving of
dispatch begins/ends, not only the sequential one the shipped loop produces. -/
def runLedgerOps (ops : List LedgerOp) : List Nat :=
  ops.foldl applyLedgerOp []

/-- A ledger state is reachable iff some sequence of begins/ends produces it. -/
def ReachableLedger (l : List Nat) : Prop :=
  ∃ ops : List LedgerOp, runLedgerOps ops = l

/-- Core functions of the two source files, for the static call-graph model. -/
inductive CoreFn
  | keyManagerNew
  | multiMintServiceNew
  | nostrServiceNew
  | appStateNew
  | appStateInit
  | initMultimint
  | nostrConnect
  | broadcastInfoEvent
  | eventLoopFn
  | notificationsStream
  | ctrlCSignal
  | waitForActiveRequests
  | handleEventFn
  | handleNwcRequestFn
  | disconnectFn
deriving DecidableEq, Repr

/-- Calls made by `AppState::new` (state.rs lines 24-42). -/
def appState_new_calls : List CoreFn :=
  [CoreFn.keyManagerNew, CoreFn.multiMintServiceNew, CoreFn.nostrServiceNew]

/-- Calls made by `AppState::init` (state.rs lines 44-49): the only call site
of `init_multimint` in the repository. -/
def appState_init_calls : List CoreFn :=
  [CoreFn.initMultimint]

/-- Calls made by `AppState::handle_event` (state.rs lines 64-82). It takes
`&self`, so it cannot call `AppState::init`, which requires `&mut self`. -/
def handle_event_calls : List CoreFn :=
  [CoreFn.handleNwcRequestFn]

/-- Calls made by `event_loop` (main.rs lines 38-83). -/
def event_loop_calls : List CoreFn :=
  [CoreFn.ctrlCSignal, CoreFn.notificationsStream, CoreFn.waitForActiveRequests,
   CoreFn.handleEventFn, CoreFn.disconnectFn]

/-- Direct calls made by `main` (main.rs lines 17-36). -/
def main_direct_calls : List CoreFn :=
  [CoreFn.appStateNew, CoreFn.nostrConnect, CoreFn.broadcastInfoEvent,
   CoreFn.eventLoopFn]

/-- Every core function reachable from `main` through the two source files. -/
def main_transitive_calls : List CoreFn :=
  main_direct_calls ++ appState_new_calls ++ event_loop_calls ++
    handle_event_calls

/-- A backend that succeeds after 2 seconds. -/
def bkQuickB : Backend := { completes := some (2, Except.ok ()) }

/-- Per-event backend oracle: every event succeeds after 2 seconds. -/
def bkQuick : Event → Backend := fun _ => bkQuickB

/-- A backend whose invocation never returns. -/
def bkNever : Backend := { completes := none }

/-- A well-formed request: right kind, authored by gateway key 7, valid sig. -/
def evGood : Event :=
  { id := 1, kind := kindWalletConnectRequest, pubkey := 7, verifyOk := true }

/-- Right kind, valid signature, but authored by key 99, not the gateway. -/
def evWrongAuthor : Event :=
  { id := 2, kind := kindWalletConnectRequest, pubkey := 99, verifyOk := true }

/-- Wrong kind, otherwise well-formed for gateway key 7. -/
def evWrongKind : Event :=
  { id := 3, kind := 1, pubkey := 7, verifyOk := true }

/-- A run in which startup fully succeeds, the loop ends on a transport
shutdown notice, and the final `disconnect()` fails. -/
def envShutdownBadDisconnect : Env :=
  { newOk := true, broadcastOk := true, disconnectOk := false, selfPk := 7,
    bk := bkQuick,
    inputs := [LoopInput.recv (RecvResult.ok Notice.shutdown)] }

/-! ## Helper lemmas about the `BTreeSet` embedding -/

theorem mem_btreeInsert {x y : Nat} : ∀ {l : List Nat},
    y ∈ btreeInsert x l ↔ y = x ∨ y ∈ l := by
  intro l
  induction l with
  | nil => simp [btreeInsert]
  | cons z zs ih =>
    by_cases hlt : x < z
    · simp [btreeInsert, hlt, List.mem_cons]
    · by_cases heq : x = z
      · subst heq
        simp [btreeInsert, hlt, List.mem_cons]
      · simp [btreeInsert, hlt, heq, List.mem_cons, ih]
        tauto

theorem mem_btreeInsert_self (x : Nat) (l : List Nat) : x ∈ btreeInsert x l :=
  mem_btreeInsert.2 (Or.inl rfl)

theorem sorted_btreeInsert (x : Nat) : ∀ {l : List Nat},
    List.Sorted (· < ·) l → List.Sorted (· < ·) (btreeInsert x l) := by
  intro l
  induction l with
  | nil => intro _; simp [btreeInsert]
  | cons y ys ih =>
    intro h
    rw [List.sorted_cons] at h
    obtain ⟨hy, hys⟩ := h
    by_cases hlt : x < y
    · rw [btreeInsert]
      simp only [if_pos hlt]
      rw [List.sorted_cons]
      refine ⟨?_, List.sorted_cons.2 ⟨hy, hys⟩⟩
      intro b hb
      rcases List.mem_cons.1 hb with rfl | hb2
      · exact hlt
      · exact Nat.lt_trans hlt (hy b hb2)
    · by_cases heq : x = y
      · rw [btreeInsert]
        simp only [if_neg hlt, if_pos heq]
        exact List.sorted_cons.2 ⟨hy, hys⟩
      · rw [btreeInsert]
        simp only [if_neg hlt, if_neg heq]
        rw [List.sorted_cons]
        refine ⟨?_, ih hys⟩
        intro b hb
        rcases mem_btreeInsert.1 hb with rfl | hb2
        · omega
        · exact hy b hb2

theorem btreeInsert_of_mem {x : Nat} : ∀ {l : List Nat},
    List.Sorted (· < ·) l → x ∈ l → btreeInsert x l = l := by
  intro l
  induction l with
  | nil => intro _ hm; cases hm
  | cons y ys ih =>
    intro hs hm
    rw [List.sorted_cons] at hs
    rcases List.mem_cons.1 hm with rfl | hmem
    · rw [btreeInsert]
      simp
    · have hyx : y < x := hs.1 x hmem
      have hlt : ¬ x < y := by omega
      have hne : x ≠ y := by omega
      rw [btreeInsert]
      simp only [if_neg hlt, if_neg hne]
      rw [ih hs.2 hmem]

theorem mem_of_mem_btreeRemove {x y : Nat} : ∀ {l : List Nat},
    y ∈ btreeRemove x l → y ∈ l := by
  intro l
  induction l with
  | nil => simp [btreeRemove]
  | cons z zs ih =>
    by_cases h : x = z
    · rw [btreeRemove]
      simp only [if_pos h]
      exact fun hm => List.mem_cons_of_mem z hm
    · rw [btreeRemove]
      simp only [if_neg h, List.mem_cons]
      rintro (rfl | hm)
      · exact Or.inl rfl
      · exact Or.inr (ih hm)

theorem sorted_btreeRemove (x : Nat) : ∀ {l : List Nat},
    List.Sorted (· < ·) l → List.Sorted (· < ·) (btreeRemove x l) := by
  intro l
  induction l with
  | nil => intro _; simp [btreeRemove]
  | cons y ys ih =>
    intro h
    rw [List.sorted_cons] at h
    by_cases hxy : x = y
    · rw [btreeRemove]
      simp only [if_pos hxy]
      exact h.2
    · rw [btreeRemove]
      simp only [if_neg hxy]
      rw [List.sorted_cons]
      exact ⟨fun b hb => h.1 b (mem_of_mem_btreeRemove hb), ih h.2⟩

theorem btreeRemove_btreeInsert {x : Nat} : ∀ {l : List Nat}, x ∉ l →
    btreeRemove x (btreeInsert x l) = l := by
  intro l
  induction l with
  | nil => intro _; simp [btreeInsert, btreeRemove]
  | cons y ys ih =>
    intro hx
    have hxy : x ≠ y := fun h => hx (h ▸ List.mem_cons_self y ys)
    have hxs : x ∉ ys := fun h => hx (List.mem_cons_of_mem y h)
    by_cases hlt : x < y
    · rw [btreeInsert]
      simp only [if_pos hlt]
      rw [btreeRemove]
      simp
    · rw [btreeInsert]
      simp only [if_neg hlt, if_neg hxy]
      rw [btreeRemove]
      simp only [if_neg hxy]
      rw [ih hxs]

theorem length_btreeInsert_of_not_mem {x : Nat} : ∀ {l : List Nat}, x ∉ l →
    (btreeInsert x l).length = l.length + 1 := by
  intro l
  induction l with
  | nil => intro _; simp [btreeInsert]
  | cons y ys ih =>
    intro hx
    have hxy : x ≠ y := fun h => hx (h ▸ List.mem_cons_self y ys)
    have hxs : x ∉ ys := fun h => hx (List.mem_cons_of_mem y h)
    by_cases hlt : x < y
    · rw [btreeInsert]
      simp [hlt]
    · rw [btreeInsert]
      simp only [if_neg hlt, if_neg hxy, List.length_cons, ih hxs]

/-! ## Helper lemmas about the dispatch and the loop -/

theorem runWithTimeout_elapsed_le (b : Backend) :
    (runWithTimeout b).snd ≤ timeoutSecs := by
  rw [runWithTimeout]
  cases hc : b.completes with
  | none => simp
  | some p =>
    obtain ⟨t, r⟩ := p
    by_cases ht : t < timeoutSecs
    · cases r <;> simp [ht] <;> omega
    · cases r <;> simp [ht]

theorem handle_event_backendInvoked_eq (active : List Nat) (ev : Event)
    (b : Backend) :
    (handle_event active ev b).backendInvoked = handle_event_gate ev := by
  rw [handle_event]
  by_cases h : handle_event_gate ev <;> simp [h]

theorem handle_event_ledger_eq (active : List Nat) (ev : Event) (b : Backend) :
    (handle_event active ev b).ledger =
      if handle_event_gate ev then btreeRemove ev.id (btreeInsert ev.id active)
      else active := by
  rw [handle_event]
  by_cases h : handle_event_gate ev <;> simp [h]

theorem event_loop_go_exitPath_indep (selfPk : Nat) (b1 b2 : Event → Backend) :
    ∀ (inputs : List LoopInput) (ledger : List Nat)
      (logs1 logs2 : List LogEntry) (calls1 calls2 : List Nat),
      (event_loop_go selfPk b1 ledger logs1 calls1 inputs).exitPath =
      (event_loop_go selfPk b2 ledger logs2 calls2 inputs).exitPath := by
  intro inputs
  induction inputs with
  | nil => intro ledger logs1 logs2 calls1 calls2; rfl
  | cons inp rest ih =>
    intro ledger logs1 logs2 calls1 calls2
    cases inp with
    | ctrlC =>
      by_cases h : ledger.isEmpty <;> simp [event_loop_go, h]
    | recv r =>
      cases r with
      | err => exact ih ledger logs1 logs2 calls1 calls2
      | ok n =>
        cases n with
        | event ev =>
          by_cases hg : event_loop_gate selfPk ev
          · simp only [event_loop_go, if_pos hg]
            have hl : (handle_event ledger ev (b1 ev)).ledger =
                (handle_event ledger ev (b2 ev)).ledger := by
              rw [handle_event_ledger_eq, handle_event_ledger_eq]
            rw [hl]
            exact ih _ _ _ _ _
          · simp only [event_loop_go, if_neg hg]
            exact ih _ _ _ _ _
        | shutdown => rfl
        | other => exact ih _ _ _ _ _

theorem sorted_foldl_ledgerOps : ∀ (ops : List LedgerOp) (acc : List Nat),
    List.Sorted (· < ·) acc →
    List.Sorted (· < ·) (ops.foldl applyLedgerOp acc) := by
  intro ops
  induction ops with
  | nil => intro acc h; simpa using h
  | cons op rest ih =>
    intro acc h
    rw [List.foldl_cons]
    apply ih
    cases op with
    | beginOp i => exact sorted_btreeInsert i h
    | endOp i => exact sorted_btreeRemove i h

theorem main_run_bk_indep (env : Env) (b : Event → Backend) :
    main_run { env with bk := b } = main_run env := by
  obtain ⟨n, br, d, pk, bk0, ins⟩ := env
  simp only [main_run, event_loop_result, event_loop_run]
  rw [event_loop_go_exitPath_indep pk b bk0 ins [] [] [] [] []]

/-! ## Claims -/

/-- C1 (counterexample): an event with the right kind and a valid signature
but the WRONG author (pubkey 99, gateway key 7) is rejected by the loop's
three-part gate, yet `handle_event` — which re-checks only kind and
signature — dispatches it to the backend. The claim that the full three-part
check is re-applied at dispatch is therefore false. -/
theorem C1_counterexample_dispatch_accepts_wrong_author :
    event_loop_gate 7 evWrongAuthor = false ∧
    (handle_event [] evWrongAuthor bkQuickB).backendInvoked = true :=
  ⟨rfl, rfl⟩

/-- C1 (amended): the notification loop accepts an event iff kind, author and
signature all check out; the dispatch entry point `handle_event` re-applies
only the kind and signature checks, not the author check. -/
theorem C1_amended_gate_asymmetry (selfPk : Nat) (ev : Event)
    (active : List Nat) (b : Backend) :
    (event_loop_gate selfPk ev = true ↔
      ev.kind = kindWalletConnectRequest ∧ ev.pubkey = selfPk ∧
        ev.verifyOk = true) ∧
    ((handle_event active ev b).backendInvoked = true ↔
      ev.kind = kindWalletConnectRequest ∧ ev.verifyOk = true) := by
  constructor
  · simp [event_loop_gate, Bool.and_eq_true, beq_iff_eq, and_assoc]
  · rw [handle_event_backendInvoked_eq]
    simp [handle_event_gate, Bool.and_eq_true, beq_iff_eq]

/-- C2: for every event accepted by the dispatch check and any backend
behaviour whatsoever, `handle_event` invokes the backend, the ledger during
the invocation is exactly the old ledger plus the event id (size +1 for a
fresh id), and the ledger after the dispatch is the old ledger again — the
entry is cleared unconditionally on success, backend error and timeout
alike. -/
theorem C2_ledger_bracketing (active : List Nat) (ev : Event) (b : Backend)
    (hacc : handle_event_gate ev = true) (hfresh : ev.id ∉ active) :
    (handle_event active ev b).backendInvoked = true ∧
    (handle_event active ev b).ledgerDuring = btreeInsert ev.id active ∧
    (handle_event active ev b).ledgerDuring.length = active.length + 1 ∧
    (handle_event active ev b).ledger = active := by
  refine ⟨?_, ?_, ?_, ?_⟩ <;>
    simp [handle_event, hacc, length_btreeInsert_of_not_mem hfresh,
      btreeRemove_btreeInsert hfresh]

/-- C2 (witness): a concrete accepted event against a 2-second backend. -/
theorem C2_witness :
    (handle_event [] evGood bkQuickB).backendInvoked = true ∧
    (handle_event [] evGood bkQuickB).ledgerDuring =
      btreeInsert evGood.id [] ∧
    (handle_event [] evGood bkQuickB).ledgerDuring.length =
      List.length ([] : List Nat) + 1 ∧
    (handle_event [] evGood bkQuickB).ledger = [] :=
  C2_ledger_bracketing [] evGood bkQuickB (by decide) (by simp)

/-- C3 (code bug): with even a single outstanding entry (id 42), the drain
wait of `wait_for_active_requests` never returns, no matter how many
1-second polls elapse: the mutex guard is held across the whole loop, so the
observed set can never change (the completing request's `remove` blocks on
the same mutex) and `is_empty` is re-checked forever on the same nonempty
set. The claim that `Stopped` is reached within max(t) + 1s fails. -/
theorem C3_drain_never_terminates (fuel : Nat) :
    wait_for_active_requests_polls fuel [42] = false := by
  induction fuel with
  | zero => rfl
  | succ n ih => simpa [wait_for_active_requests_polls] using ih

/-- C4: an event failing the loop's gate (wrong kind, wrong author, or
invalid signature) is dropped with the invalid-event diagnostic: the loop
continues with the ledger untouched, no backend call recorded, and only the
diagnostic appended to the log. -/
theorem C4_rejected_events_frame (selfPk : Nat) (bk : Event → Backend)
    (ledger : List Nat) (logs : List LogEntry) (calls : List Nat) (ev : Event)
    (rest : List LoopInput) (hrej : event_loop_gate selfPk ev = false) :
    event_loop_go selfPk bk ledger logs calls
        (LoopInput.recv (RecvResult.ok (Notice.event ev)) :: rest) =
      event_loop_go selfPk bk ledger
        (logs ++ [LogEntry.errorInvalidNwc ev.id]) calls rest := by
  simp [event_loop_go, hrej]

/-- C4 (witness): a wrong-kind event dropped by the gate on gateway key 7. -/
theorem C4_witness :
    event_loop_go 7 bkQuick [] [] []
        (LoopInput.recv (RecvResult.ok (Notice.event evWrongKind)) :: []) =
      event_loop_go 7 bkQuick []
        ([] ++ [LogEntry.errorInvalidNwc evWrongKind.id]) [] [] :=
  C4_rejected_events_frame 7 bkQuick [] [] [] evWrongKind [] (by decide)

/-- C5: every backend invocation is bounded by the fixed 60-second timeout
(`elapsed ≤ timeoutSecs` for every backend behaviour); when the invocation
never completes, the dispatch finishes at exactly 60 seconds, logs the
timeout diagnostic (a constructor distinct from the backend-error
`errorProcessing` log), clears the ledger entry, and issues no cancellation
command towards the backend. -/
theorem C5_timeout_bound (active : List Nat) (ev : Event) (b bN : Backend)
    (hacc : handle_event_gate ev = true) (hfresh : ev.id ∉ active)
    (hnever : bN.completes = none) :
    (handle_event active ev b).elapsed ≤ timeoutSecs ∧
    (handle_event active ev bN).elapsed = timeoutSecs ∧
    (handle_event active ev bN).logs =
      [LogEntry.infoReceivedDispatch ev.id, LogEntry.errorTimeout] ∧
    (handle_event active ev bN).ledger = active ∧
    (handle_event active ev bN).cancelSent = false := by
  have hb : (handle_event active ev b).elapsed ≤ timeoutSecs := by
    rw [handle_event]
    by_cases h : handle_event_gate ev
    · simp only [if_pos h]
      exact runWithTimeout_elapsed_le b
    · simp [h]
  have hrun : runWithTimeout bN = (DispatchOutcome.timedOut, timeoutSecs) := by
    rw [runWithTimeout, hnever]
  refine ⟨hb, ?_, ?_, ?_, ?_⟩ <;>
    simp [handle_event, hacc, hrun, btreeRemove_btreeInsert hfresh]

/-- C5 (witness): a concrete accepted event against a never-returning
backend (and a 2-second backend for the bound conjunct). -/
theorem C5_witness :
    (handle_event [] evGood bkQuickB).elapsed ≤ timeoutSecs ∧
    (handle_event [] evGood bkNever).elapsed = timeoutSecs ∧
    (handle_event [] evGood bkNever).logs =
      [LogEntry.infoReceivedDispatch evGood.id, LogEntry.errorTimeout] ∧
    (handle_event [] evGood bkNever).ledger = [] ∧
    (handle_event [] evGood bkNever).cancelSent = false :=
  C5_timeout_bound [] evGood bkQuickB bkNever (by decide) (by simp) rfl

/-- C6: on a transport shutdown notice the loop logs it and breaks
immediately — the remaining schedule is never consumed, the drain wait is
not entered, the ledger is left as it was, and the transport disconnect is
called before control returns to the caller. -/
theorem C6_shutdown_skips_drain (selfPk : Nat) (bk : Event → Backend)
    (ledger : List Nat) (logs : List LogEntry) (calls : List Nat)
    (rest : List LoopInput) :
    event_loop_go selfPk bk ledger logs calls
        (LoopInput.recv (RecvResult.ok Notice.shutdown) :: rest) =
      { ledger := ledger, logs := logs ++ [LogEntry.infoRelayShutdown],
        backendCalls := calls, exitPath := some ExitPath.relayShutdown,
        drainWaitEntered := false, disconnectCalled := true,
        hung := false } :=
  rfl

/-- C7 (counterexample): a run in which every startup step succeeds and the
loop breaks on a transport shutdown notice, but the final `disconnect()`
fails, exits nonzero — so "exits nonzero if and only if startup fails" is
false as stated. -/
theorem C7_counterexample_disconnect_failure :
    main_run envShutdownBadDisconnect = some ExitStatus.nonzero ∧
    envShutdownBadDisconnect.newOk = true ∧
    envShutdownBadDisconnect.broadcastOk = true ∧
    (event_loop_run envShutdownBadDisconnect).exitPath =
      some ExitPath.relayShutdown :=
  ⟨rfl, rfl, rfl, rfl⟩

/-- C7 (amended): the process exits 0 exactly when startup succeeds, the
loop reaches `Stopped` (either exit path), and the final disconnect
succeeds; it exits nonzero exactly when startup fails or `Stopped` was
reached but the final disconnect failed; and the exit status never depends
on per-request backend outcomes. -/
theorem C7_amended_exit_codes (env : Env) (b1 b2 : Event → Backend) :
    (main_run env = some ExitStatus.zero ↔
      env.newOk = true ∧ env.broadcastOk = true ∧ env.disconnectOk = true ∧
        (event_loop_run env).exitPath ≠ none) ∧
    (main_run env = some ExitStatus.nonzero ↔
      (env.newOk = false ∨ env.broadcastOk = false ∨
        (env.disconnectOk = false ∧ (event_loop_run env).exitPath ≠ none))) ∧
    main_run { env with bk := b1 } = main_run { env with bk := b2 } := by
  refine ⟨?_, ?_, (main_run_bk_indep env b1).trans
    (main_run_bk_indep env b2).symm⟩ <;>
  · cases hn : env.newOk <;> cases hb : env.broadcastOk <;>
      cases hd : env.disconnectOk <;>
      cases hp : (event_loop_run env).exitPath <;>
      simp [main_run, event_loop_result, hn, hb, hd, hp]

/-- C8 (counterexample): feeding the loop exactly one receive error produces
an empty log — nothing is logged, at any severity, contradicting the claim
that a receive error is logged. -/
theorem C8_counterexample_silent :
    (event_loop_go 7 bkQuick [] [] []
      [LoopInput.recv RecvResult.err]).logs = [] :=
  rfl

/-- C8 (amended): a receive error on the notification stream is silently
ignored — the `Err(_)` arm does nothing at all — and the loop continues with
its state untouched; in particular a receive error never terminates the
loop. -/
theorem C8_amended_recv_error_ignored (selfPk : Nat) (bk : Event → Backend)
    (ledger : List Nat) (logs : List LogEntry) (calls : List Nat)
    (rest : List LoopInput) :
    event_loop_go selfPk bk ledger logs calls
        (LoopInput.recv RecvResult.err :: rest) =
      event_loop_go selfPk bk ledger logs calls rest :=
  rfl

/-- C9: every ledger reachable from the empty set by any interleaving of
dispatch begins (`BTreeSet::insert`) and ends (`BTreeSet::remove`) has no
duplicate identifiers; inserting an id into a reachable ledger keeps it
duplicate-free, and inserting the same id twice is the same as inserting it
once. -/
theorem C9_no_duplicates (l : List Nat) (x : Nat) (h : ReachableLedger l) :
    l.Nodup ∧ (btreeInsert x l).Nodup ∧
    btreeInsert x (btreeInsert x l) = btreeInsert x l := by
  obtain ⟨ops, rfl⟩ := h
  have hs : List.Sorted (· < ·) (runLedgerOps ops) :=
    sorted_foldl_ledgerOps ops [] List.sorted_nil
  have hsi : List.Sorted (· < ·) (btreeInsert x (runLedgerOps ops)) :=
    sorted_btreeInsert x hs
  exact ⟨hs.nodup, hsi.nodup,
    btreeInsert_of_mem hsi (mem_btreeInsert_self x (runLedgerOps ops))⟩

/-- C9 (witness): the ledger `[2, 5]` reached by beginning requests 5 and 2. -/
theorem C9_witness :
    ([2, 5] : List Nat).Nodup ∧ (btreeInsert 2 [2, 5]).Nodup ∧
    btreeInsert 2 (btreeInsert 2 [2, 5]) = btreeInsert 2 [2, 5] :=
  C9_no_duplicates [2, 5] 2 ⟨[LedgerOp.beginOp 5, LedgerOp.beginOp 2], rfl⟩

/-- C10: `AppState::init` (and with it `init_multimint`, whose only call
site is `AppState::init`) is not reachable from `main` through the shipped
source: `main` builds the state, connects, publishes the info event and
enters the event loop, and no function on that path calls `init`. -/
theorem C10_init_never_called :
    CoreFn.appStateInit ∉ main_transitive_calls ∧
    CoreFn.initMultimint ∉ main_transitive_calls ∧
    CoreFn.initMultimint ∈ appState_init_calls := by
  decide

end FedimintNwc
